import Mathlib

/-!
# Verification of the `Caching` disk-persisted memoization cache

Shallow embedding of `src/cache.hpp` (the final revision of the header: the
`Caching` namespace with `Dependances`, the free `serialize`/`deserialize`
dispatchers, `Cache` and `ConcurrentCache`).

Modelling conventions:
* A byte is a `Nat` (values below 256 in well-formed streams); a byte buffer
  is a `List Nat`.
* A composite key `Dependances<T...>` is modelled by its shape `ws : List Nat`
  (the `sizeof` of each slot, in declared order) together with its slot values
  `vals : List Nat` (each slot's object representation read as a little-endian
  number, as `memcpy` produces on the host).
* `std::unordered_map` is modelled as an association list with first-match
  lookup; `map[k] = v` is replace-first-or-append.
* Reading past the end of a C++ buffer is undefined behaviour; the model
  returns 0 for out-of-range bytes (`List.getD _ _ 0`), which is one possible
  concrete outcome.
-/

namespace Caching

/-- Little-endian object representation of a scalar of byte width `w` holding
bit pattern `n` (what `memcpy` from the object yields on the host). -/
def leBytes : Nat → Nat → List Nat
  | 0, _ => []
  | w + 1, n => n % 256 :: leBytes w (n / 256)

/-- Reassemble a little-endian byte buffer into the bit pattern it denotes
(what `memcpy` into a scalar object yields on the host). -/
def fromLE : List Nat → Nat
  | [] => 0
  | b :: bs => b + 256 * fromLE bs

/-- Read `n` bytes at offset `off` from a buffer, as the C++ code reads through
a raw pointer; indices past the end are undefined behaviour in the source and
yield 0 in the model. -/
def readBytes (bytes : List Nat) (off n : Nat) : List Nat :=
  (List.range n).map (fun i => bytes.getD (off + i) 0)

/-- `Dependances<T...>::BinSize`: the sum of the slots' byte widths, folded
exactly as the source's `((size += sizeof(args)), ...)`. -/
def Dependances.BinSize (ws : List Nat) : Nat :=
  ws.foldl (fun size w => size + w) 0

/-- `Dependances<T...>::serialize`: `memcpy` each slot's raw bytes into the
output at an accumulating offset — i.e. each slot's representation written
contiguously in declared order. -/
def Dependances.serialize : List Nat → List Nat → List Nat
  | w :: ws, v :: vs => leBytes w v ++ Dependances.serialize ws vs
  | _, _ => []

/-- `Dependances<T...>::deserialize`: `memcpy` each slot out of the input span
at an accumulating offset. -/
def Dependances.deserialize : List Nat → List Nat → List Nat
  | [], _ => []
  | w :: ws, bytes => fromLE (bytes.take w) :: Dependances.deserialize ws (bytes.drop w)

/-- `std::hash<Dependances<T...>>::operator()`: start from
`std::numeric_limits<size_t>::max()` and XOR in a hash of each slot.  The
per-slot hash `std::hash<std::string>{}(std::to_string(arg))` is
implementation-defined, so it is abstracted as a parameter `hs` from the slot
(width, value) to its hash. -/
def hashDeps (hs : Nat × Nat → Nat) (slots : List (Nat × Nat)) : Nat :=
  slots.foldl (fun result s => result ^^^ hs s) (2 ^ 64 - 1)

/-- The table type behind `Cache`: `std::unordered_map<Key, Value>` modelled as
an association list with unique keys. -/
abbrev Table (K V : Type) := List (K × V)

/-- `storage.find(key)` / `storage.at(key)`: first-match lookup. -/
def findTab {K V : Type} [DecidableEq K] : Table K V → K → Option V
  | [], _ => none
  | (k', v') :: rest, k => if k' = k then some v' else findTab rest k

/-- `storage[deps] = value`: `operator[]` plus assignment — replaces the value
of an existing entry, otherwise inserts a new one. -/
def storeTab {K V : Type} [DecidableEq K] : Table K V → K → V → Table K V
  | [], k, v => [(k, v)]
  | (k', v') :: rest, k, v =>
      if k' = k then (k, v) :: rest else (k', v') :: storeTab rest k v

/-- `Cache::load`: return the stored value if the key is present. -/
def Cache.load {K V : Type} [DecidableEq K] (storage : Table K V) (key : K) : Option V :=
  findTab storage key

/-- `Cache::store`: `storage[deps] = value`. -/
def Cache.store {K V : Type} [DecidableEq K] (storage : Table K V) (deps : K) (value : V) :
    Table K V :=
  storeTab storage deps value

/-- The operations a `Cache` instance exposes on its table. -/
inductive CacheOp (K V : Type) where
  | loadOp (key : K)
  | storeOp (key : K) (value : V)

/-- One call on a `Cache` instance: the resulting table state and the value
returned to the caller.  `load` is a `const` member (the table it leaves
behind is the table it was called on); `store` returns nothing. -/
def Cache.step {K V : Type} [DecidableEq K] (storage : Table K V) :
    CacheOp K V → Table K V × Option V
  | .loadOp k => (storage, Cache.load storage k)
  | .storeOp k v => (Cache.store storage k v, none)

/-- The free `Caching::serialize` dispatcher.  The `if constexpr` chain is
compile-time: whether the argument's type has a `serialize()` member and
whether it `std::is_trivial_v` are static facts of the type, modelled as two
booleans; the bytes each admissible branch would produce are passed in
(`methodBytes` = `val.serialize()`, `rawBytes` = `std::bit_cast` of the object
representation).  When neither branch applies the function throws
`std::invalid_argument`. -/
def serializeDispatch (hasSerializeMethod isTrivial : Bool)
    (methodBytes rawBytes : List Nat) : Except String (List Nat) :=
  if hasSerializeMethod then Except.ok methodBytes
  else if isTrivial then Except.ok rawBytes
  else Except.error "val is neither object of a class with method serealize nor of a trivial type"

/-- The free `Caching::deserialize<T>` dispatcher, symmetric to
`serializeDispatch`: delegate to `T::deserialize` when the type provides one,
else `memcpy` into a trivial `T`, else throw `std::invalid_argument`.
`T` is opaque here; the value either branch would produce is passed in. -/
def deserializeDispatch {T : Type} (hasDeserializeMethod isTrivial : Bool)
    (methodValue memcpyValue : T) : Except String T :=
  if hasDeserializeMethod then Except.ok methodValue
  else if isTrivial then Except.ok memcpyValue
  else Except.error "T is neither object of a class with method deserealize nor of a trivial type"

/-- `Cache::serialize`: for each `(key, value)` of the table append the key's
bytes (`Caching::serialize(key)` delegates to `Dependances::serialize`) then
the value's bytes (`Caching::serialize(value)` bit-casts the trivial value of
width `vw`). -/
def Cache.serializeBytes (ws : List Nat) (vw : Nat) :
    Table (List Nat) Nat → List Nat
  | [] => []
  | (key, value) :: rest =>
      Dependances.serialize ws key ++ leBytes vw value ++ Cache.serializeBytes ws vw rest

/-- `Cache::deserialize(bytes, cached_count)`: the loop
`for (size_t i = 0; i <= cached_count; i++, ptr += bytes.size() / cached_count)`
decoding a key of `Key::BinSize` bytes and a value of `sizeof(Value)` bytes at
`ptr` and doing `map[key] = value`.  Note the source bound is `i <= cached_count`,
so the loop body runs `cached_count + 1` times. -/
def Cache.deserializeMap (ws : List Nat) (vw : Nat) (bytes : List Nat)
    (cachedCount : Nat) : Table (List Nat) Nat :=
  (List.range (cachedCount + 1)).foldl
    (fun map i =>
      let ptr := i * (bytes.length / cachedCount)
      let key := Dependances.deserialize ws (readBytes bytes ptr (Dependances.BinSize ws))
      let value := fromLE (readBytes bytes (ptr + Dependances.BinSize ws) vw)
      storeTab map key value)
    []

/-- `Cache::load_from_file`: `none` models a file that fails to open
(`!file_dump.good()`); otherwise `tellg` gives the byte length, a length of
zero returns early with the table still empty, and otherwise the whole file is
read and handed to `Cache::deserialize` with
`cached_count = len / (Key::BinSize + sizeof(Value))`. -/
def Cache.load_from_file (ws : List Nat) (vw : Nat) (file : Option (List Nat)) :
    Table (List Nat) Nat :=
  match file with
  | none => []
  | some bytes =>
      if bytes.length = 0 then []
      else Cache.deserializeMap ws vw bytes (bytes.length / (Dependances.BinSize ws + vw))

/-- `Cache::dump_to_file`: the bytes written to the cache file at teardown,
replacing any prior contents (`std::ios::out`, no append). -/
def Cache.dump_to_file (ws : List Nat) (vw : Nat) (storage : Table (List Nat) Nat) :
    List Nat :=
  Cache.serializeBytes ws vw storage

/-- Modelled from the spec: the tagged `Cache<Key, Value, Tag>` file-name
resolution.  The tagged variant exercised by the tests
(`Cache<Dependances<int>, int, "First">`, via the `StringLiteral` helper) is
absent from the sources — only the untagged `get_cache_file_name` appears —
so, per the spec, the name is derived deterministically from the key slots'
type names, the value's type name and the caller-supplied tag, each a distinct
`_`-separated component before the `.bin` suffix. -/
def get_cache_file_name (keyTypeNames : List String) (valueTypeName : String)
    (tag : String) : String :=
  "_cache" ++ keyTypeNames.foldl (fun res n => res ++ "_" ++ n) ""
    ++ "__" ++ valueTypeName ++ "_" ++ tag ++ ".bin"

/-- A cache instance constructed against file system `fs` (mapping file names
to contents, `none` = absent) starts from the table its constructor loads from
its own cache file. -/
def Cache.construct (ws : List Nat) (vw : Nat) (fs : String → Option (List Nat))
    (name : String) : Table (List Nat) Nat :=
  Cache.load_from_file ws vw (fs name)

/-! ## Helper lemmas -/

theorem leBytes_length (w n : Nat) : (leBytes w n).length = w := by
  induction w generalizing n with
  | zero => rfl
  | succ w ih => simp [leBytes, ih]

theorem fromLE_leBytes (w n : Nat) (h : n < 256 ^ w) : fromLE (leBytes w n) = n := by
  induction w generalizing n with
  | zero =>
      interval_cases n
      rfl
  | succ w ih =>
      have hdiv : n / 256 < 256 ^ w := by
        rw [Nat.div_lt_iff_lt_mul (by norm_num)]
        calc n < 256 ^ (w + 1) := h
        _ = 256 ^ w * 256 := by ring
      simp only [leBytes, fromLE, ih (n / 256) hdiv]
      omega

theorem binSize_shift (ws : List Nat) (a : Nat) :
    ws.foldl (fun size w => size + w) a = a + ws.foldl (fun size w => size + w) 0 := by
  induction ws generalizing a with
  | nil => simp
  | cons w ws ih =>
      simp only [List.foldl_cons]
      rw [ih (a + w), ih (0 + w)]
      omega

theorem binSize_cons (w : Nat) (ws : List Nat) :
    Dependances.BinSize (w :: ws) = w + Dependances.BinSize ws := by
  simp only [Dependances.BinSize, List.foldl_cons, Nat.zero_add]
  exact binSize_shift ws w

theorem findTab_storeTab_self {K V : Type} [DecidableEq K] (t : Table K V) (k : K) (v : V) :
    findTab (storeTab t k v) k = some v := by
  induction t with
  | nil => simp [storeTab, findTab]
  | cons p rest ih =>
      by_cases h : p.1 = k
      · simp [storeTab, findTab, h]
      · simp [storeTab, findTab, h, ih]

theorem findTab_storeTab_ne {K V : Type} [DecidableEq K] (t : Table K V) (k k' : K) (v : V)
    (h : k' ≠ k) : findTab (storeTab t k v) k' = findTab t k' := by
  have hk : ¬ k = k' := fun hh => h hh.symm
  induction t with
  | nil => simp [storeTab, findTab, hk]
  | cons p rest ih =>
      by_cases hp : p.1 = k
      · have hp' : ¬ p.1 = k' := by rw [hp]; exact hk
        simp [storeTab, findTab, hp, hk, hp']
      · simp [storeTab, findTab, hp, ih]

theorem storeTab_length {K V : Type} [DecidableEq K] (t : Table K V) (k : K) (v v1 : V)
    (h : findTab t k = some v1) : (storeTab t k v).length = t.length := by
  induction t with
  | nil => simp [findTab] at h
  | cons p rest ih =>
      by_cases hp : p.1 = k
      · simp [storeTab, hp]
      · simp only [findTab, hp, if_neg] at h
        simp [storeTab, hp, ih h]

theorem foldl_xor_shift (hs : Nat × Nat → Nat) (slots : List (Nat × Nat)) (a : Nat) :
    slots.foldl (fun result s => result ^^^ hs s) a
      = a ^^^ slots.foldl (fun result s => result ^^^ hs s) 0 := by
  induction slots generalizing a with
  | nil => simp
  | cons s rest ih =>
      simp only [List.foldl_cons]
      rw [ih (a ^^^ hs s), ih (0 ^^^ hs s), Nat.zero_xor, Nat.xor_assoc]

theorem serialize_length (ws vs : List Nat) (h : vs.length = ws.length) :
    (Dependances.serialize ws vs).length = Dependances.BinSize ws := by
  induction ws generalizing vs with
  | nil =>
      cases vs with
      | nil => rfl
      | cons v vs => simp at h
  | cons w ws ih =>
      cases vs with
      | nil => simp at h
      | cons v vs =>
          simp only [List.length_cons, Nat.add_right_cancel_iff] at h
          simp only [Dependances.serialize, List.length_append, leBytes_length,
            ih vs h, binSize_cons]

theorem deserialize_serialize (ws vs : List Nat)
    (h : List.Forall₂ (fun w v => v < 256 ^ w) ws vs) :
    Dependances.deserialize ws (Dependances.serialize ws vs) = vs := by
  induction h with
  | nil => rfl
  | @cons w v ws vs hb _ ih =>
      simp only [Dependances.serialize, Dependances.deserialize,
        List.take_left' (leBytes_length w v), List.drop_left' (leBytes_length w v),
        fromLE_leBytes w v hb, ih]

theorem foldl_xor_eq_foldr (hs : Nat × Nat → Nat) (slots : List (Nat × Nat)) (a : Nat) :
    slots.foldl (fun result s => result ^^^ hs s) a
      = a ^^^ (slots.map hs).foldr (fun x y => x ^^^ y) 0 := by
  induction slots generalizing a with
  | nil => simp
  | cons s rest ih =>
      simp only [List.foldl_cons, List.map_cons, List.foldr_cons, ih (a ^^^ hs s),
        Nat.xor_assoc]

theorem foldr_xor_seed (l : List Nat) (seed : Nat) :
    l.foldr (fun x y => x ^^^ y) seed = l.foldr (fun x y => x ^^^ y) 0 ^^^ seed := by
  induction l with
  | nil => simp
  | cons x rest ih => simp only [List.foldr_cons, ih, Nat.xor_assoc]

theorem hashDeps_foldr (hs : Nat × Nat → Nat) (slots : List (Nat × Nat)) :
    hashDeps hs slots = (slots.map hs).foldr (fun a b => a ^^^ b) (2 ^ 64 - 1) := by
  rw [hashDeps, foldl_xor_eq_foldr, foldr_xor_seed (slots.map hs) (2 ^ 64 - 1)]
  exact Nat.xor_comm _ _

theorem hashDeps_perm (hs : Nat × Nat → Nat) (s1 s2 : List (Nat × Nat))
    (p : s1.Perm s2) : hashDeps hs s1 = hashDeps hs s2 :=
  p.foldl_eq' (fun x _ y _ z => by
    simp only [Nat.xor_assoc, Nat.xor_comm (hs x) (hs y)]) (2 ^ 64 - 1)

theorem binSize_eq_sum (ws : List Nat) : Dependances.BinSize ws = ws.sum := by
  induction ws with
  | nil => rfl
  | cons w ws ih => rw [binSize_cons, ih, List.sum_cons]

/-! ## Claim theorems -/

/-- C3: if the cache file does not exist (`!file_dump.good()`) or has size
zero at construction, the cache starts with an empty table and no error is
raised. -/
theorem claim_missing_or_empty_file_yields_empty_table (ws : List Nat) (vw : Nat) :
    Cache.load_from_file ws vw none = [] ∧
    ∀ bytes : List Nat, bytes.length = 0 → Cache.load_from_file ws vw (some bytes) = [] := by
  refine ⟨rfl, fun bytes h => ?_⟩
  simp [Cache.load_from_file, h]

theorem claim_missing_or_empty_file_witness :
    Cache.load_from_file [4] 4 none = [] ∧ Cache.load_from_file [4] 4 (some []) = [] :=
  ⟨(claim_missing_or_empty_file_yields_empty_table [4] 4).1,
   (claim_missing_or_empty_file_yields_empty_table [4] 4).2 [] rfl⟩

/-- C6: after `store(k, v2)` on a key `k` that already maps to some `v1`, the
table maps `k` to `v2` (the old value is replaced and the entry count does not
grow) and `load(k)` returns `v2`. -/
theorem claim_store_overwrites_existing_key {K V : Type} [DecidableEq K]
    (t : Table K V) (k : K) (v1 v2 : V) (h : findTab t k = some v1) :
    findTab (Cache.store t k v2) k = some v2 ∧
    (Cache.store t k v2).length = t.length ∧
    Cache.load (Cache.store t k v2) k = some v2 :=
  ⟨findTab_storeTab_self t k v2, storeTab_length t k v2 v1 h,
   findTab_storeTab_self t k v2⟩

theorem claim_store_overwrites_existing_key_witness :
    findTab (Cache.store [(([1] : List Nat), (5 : Nat))] [1] 9) [1] = some 9 ∧
    (Cache.store [(([1] : List Nat), (5 : Nat))] [1] 9).length
      = [(([1] : List Nat), (5 : Nat))].length ∧
    Cache.load (Cache.store [(([1] : List Nat), (5 : Nat))] [1] 9) [1] = some 9 :=
  claim_store_overwrites_existing_key [([1], 5)] [1] 5 9 (by decide)

/-- C10: `load(k)` leaves the table completely unchanged (it is a `const`
member), and `store(k, v)` leaves the mapping of every key other than `k`
unchanged. -/
theorem claim_load_store_frame {K V : Type} [DecidableEq K]
    (t : Table K V) (k k' : K) (v : V) (h : k' ≠ k) :
    (Cache.step t (CacheOp.loadOp k)).1 = t ∧
    findTab (Cache.step t (CacheOp.storeOp k v)).1 k' = findTab t k' :=
  ⟨rfl, findTab_storeTab_ne t k k' v h⟩

/-- C1 (evaluating the code at the failing input): with one `int` key slot and
`int` values, storing 7 under the all-zero key into a fresh cache, dumping the
table, and constructing a new instance from the dumped 8-byte file makes
`load` return `some 0`, not the stored `some 7`: the deserialize loop bound
`i <= cached_count` runs one extra iteration whose record is read past the end
of the buffer (undefined behaviour, modelled as zero bytes) and its all-zero
key/value pair overwrites the genuine entry. -/
theorem claim_roundtrip_failing_input :
    Cache.dump_to_file [4] 4 (Cache.store [] [0] 7) = [0, 0, 0, 0, 7, 0, 0, 0] ∧
    Cache.load (Cache.load_from_file [4] 4
      (some (Cache.dump_to_file [4] 4 (Cache.store [] [0] 7)))) [0] = some 0 ∧
    some (0 : Nat) ≠ some 7 := by
  exact ⟨by decide, by decide, by decide⟩

/-- C2 (evaluating the code at the failing input): a well-formed 16-byte file
holding two records (record size 8) is decoded into three table entries, not
`floor(16 / 8) = 2`, and a 15-byte file (one byte truncated) into two entries,
not `floor(15 / 8) = 1`: the loop `for (i = 0; i <= cached_count; i++)` decodes
`cached_count + 1` records, the last read beyond the file's bytes (undefined
behaviour, modelled as zero bytes). -/
theorem claim_record_count_failing_input :
    ([1, 0, 0, 0, 10, 0, 0, 0, 2, 0, 0, 0, 20, 0, 0, 0] : List Nat).length
        / (Dependances.BinSize [4] + 4) = 2 ∧
    (Cache.load_from_file [4] 4
      (some [1, 0, 0, 0, 10, 0, 0, 0, 2, 0, 0, 0, 20, 0, 0, 0])).length = 3 ∧
    ([1, 0, 0, 0, 10, 0, 0, 0, 2, 0, 0, 0, 20, 0, 0] : List Nat).length
        / (Dependances.BinSize [4] + 4) = 1 ∧
    (Cache.load_from_file [4] 4
      (some [1, 0, 0, 0, 10, 0, 0, 0, 2, 0, 0, 0, 20, 0, 0])).length = 2 := by
  exact ⟨by decide, by decide, by decide, by decide⟩

/-- C9 (modelled from the spec, the tagged `Cache` variant being absent from
the sources): two cache instances with the same key and value shapes but
different tag strings resolve to distinct cache file names, and writing one
instance's file leaves what the other instance loads at construction
unchanged. -/
theorem claim_tag_isolation (kts : List String) (vtn t1 t2 : String) (h : t1 ≠ t2) :
    get_cache_file_name kts vtn t1 ≠ get_cache_file_name kts vtn t2 ∧
    ∀ (ws : List Nat) (vw : Nat) (fs : String → Option (List Nat))
      (b : Option (List Nat)),
      Cache.construct ws vw (Function.update fs (get_cache_file_name kts vtn t1) b)
        (get_cache_file_name kts vtn t2)
      = Cache.construct ws vw fs (get_cache_file_name kts vtn t2) := by
  have hne : get_cache_file_name kts vtn t1 ≠ get_cache_file_name kts vtn t2 := by
    intro heq
    apply h
    have hd := congrArg String.data heq
    simp only [get_cache_file_name, String.data_append, List.append_assoc] at hd
    have h1 := List.append_cancel_left hd
    have h2 := List.append_cancel_left h1
    have h3 := List.append_cancel_left h2
    have h4 := List.append_cancel_left h3
    have h5 := List.append_cancel_left h4
    exact String.ext (List.append_cancel_right h5)
  refine ⟨hne, fun ws vw fs b => ?_⟩
  unfold Cache.construct
  rw [Function.update_noteq (Ne.symm hne)]

theorem claim_tag_isolation_witness :
    get_cache_file_name ["i"] "i" "First" ≠ get_cache_file_name ["i"] "i" "Second" :=
  (claim_tag_isolation ["i"] "i" "First" "Second" (by decide)).1

/-- C4: key equality is structural, pairwise over slots in declared order —
two composite keys (of a common shape, so of equal slot count) are equal iff
every slot compares equal pairwise — and concretely
`make(1, 4.6) == make(1, 4.6)` with identical serialized byte forms while
`make(1, 4.6) != make(2, 4.6)` (4616865157998863974 = 0x4012666666666666 is
the bit pattern of the `double` 4.6). -/
theorem claim_key_equality_structural :
    (∀ k1 k2 : List Nat, k1.length = k2.length →
      (k1 = k2 ↔ ∀ i, i < k1.length → k1.getD i 0 = k2.getD i 0)) ∧
    (∀ (ws k1 k2 : List Nat), k1 = k2 →
      Dependances.serialize ws k1 = Dependances.serialize ws k2) ∧
    ([1, 4616865157998863974] : List Nat) = [1, 4616865157998863974] ∧
    Dependances.serialize [4, 8] [1, 4616865157998863974]
      = Dependances.serialize [4, 8] [1, 4616865157998863974] ∧
    ([1, 4616865157998863974] : List Nat) ≠ [2, 4616865157998863974] := by
  refine ⟨fun k1 k2 hlen => ⟨fun h i _ => by rw [h], fun h => ?_⟩,
    fun ws k1 k2 h => by rw [h], rfl, rfl, by decide⟩
  apply List.ext_getElem hlen
  intro n h1 h2
  have hn := h n h1
  rwa [List.getD_eq_getElem _ _ h1, List.getD_eq_getElem _ _ h2] at hn

theorem claim_key_equality_structural_witness :
    ([1, 4616865157998863974] : List Nat) = [1, 4616865157998863974] :=
  (claim_key_equality_structural.1 [1, 4616865157998863974] [1, 4616865157998863974]
    rfl).mpr (by decide)

/-- C5: for every composite key, `serialize` writes each slot's raw bytes
contiguously in declared order producing exactly `BinSize` bytes (the sum of
the slots' fixed byte widths), and `deserialize` is its inverse on the
serialized form. -/
theorem claim_serialize_roundtrip (ws vs : List Nat)
    (h : List.Forall₂ (fun w v => v < 256 ^ w) ws vs) :
    (Dependances.serialize ws vs).length = Dependances.BinSize ws ∧
    Dependances.BinSize ws = ws.sum ∧
    Dependances.deserialize ws (Dependances.serialize ws vs) = vs :=
  ⟨serialize_length ws vs h.length_eq.symm, binSize_eq_sum ws,
   deserialize_serialize ws vs h⟩

theorem claim_serialize_roundtrip_witness :
    (Dependances.serialize [4, 8] [1, 4616865157998863974]).length
      = Dependances.BinSize [4, 8] ∧
    Dependances.BinSize [4, 8] = ([4, 8] : List Nat).sum ∧
    Dependances.deserialize [4, 8] (Dependances.serialize [4, 8] [1, 4616865157998863974])
      = [1, 4616865157998863974] :=
  claim_serialize_roundtrip [4, 8] [1, 4616865157998863974]
    (List.Forall₂.cons (by norm_num) (List.Forall₂.cons (by norm_num) List.Forall₂.nil))

/-- C7: the key hash is the maximum representable 64-bit value XOR-folded with
the (abstracted, implementation-defined) hash `hs` of each slot's textual
representation; hence equal keys have equal hashes and the hash is invariant
under permutation of the slot sequence. -/
theorem claim_hash_xor_fold (hs : Nat × Nat → Nat) :
    (∀ slots : List (Nat × Nat),
      hashDeps hs slots = (slots.map hs).foldr (fun a b => a ^^^ b) (2 ^ 64 - 1)) ∧
    (∀ s1 s2 : List (Nat × Nat), s1 = s2 → hashDeps hs s1 = hashDeps hs s2) ∧
    (∀ s1 s2 : List (Nat × Nat), s1.Perm s2 → hashDeps hs s1 = hashDeps hs s2) :=
  ⟨hashDeps_foldr hs, fun s1 s2 h => by rw [h], hashDeps_perm hs⟩

theorem claim_hash_xor_fold_witness :
    hashDeps (fun s => s.1 + s.2) [(4, 1), (8, 2)]
      = hashDeps (fun s => s.1 + s.2) [(8, 2), (4, 1)] :=
  (claim_hash_xor_fold (fun s => s.1 + s.2)).2.2 [(4, 1), (8, 2)] [(8, 2), (4, 1)]
    (by decide)

/-- C8: `Caching::serialize` delegates to the value's own `serialize` member
when the type provides one; otherwise, for a trivial (plain-old-data) type it
bit-casts the raw in-memory representation; for a type that is neither it
throws an explicit `std::invalid_argument` instead of silently producing
bytes, and `Caching::deserialize` behaves symmetrically. -/
theorem claim_codec_dispatch (hm tr : Bool) (mb rb : List Nat) {T : Type} (mv cv : T) :
    (hm = true → serializeDispatch hm tr mb rb = Except.ok mb ∧
      deserializeDispatch hm tr mv cv = Except.ok mv) ∧
    (hm = false → tr = true → serializeDispatch hm tr mb rb = Except.ok rb ∧
      deserializeDispatch hm tr mv cv = Except.ok cv) ∧
    (hm = false → tr = false →
      serializeDispatch hm tr mb rb = Except.error
        "val is neither object of a class with method serealize nor of a trivial type" ∧
      deserializeDispatch hm tr mv cv = Except.error
        "T is neither object of a class with method deserealize nor of a trivial type") := by
  refine ⟨?_, ?_, ?_⟩
  · rintro rfl
    exact ⟨rfl, rfl⟩
  · rintro rfl rfl
    exact ⟨rfl, rfl⟩
  · rintro rfl rfl
    exact ⟨rfl, rfl⟩

theorem claim_codec_dispatch_witness :
    serializeDispatch false false [1] [2] = Except.error
      "val is neither object of a class with method serealize nor of a trivial type" ∧
    deserializeDispatch false false (3 : Nat) 4 = Except.error
      "T is neither object of a class with method deserealize nor of a trivial type" :=
  (claim_codec_dispatch false false [1] [2] (3 : Nat) 4).2.2 rfl rfl

theorem claim_load_store_frame_witness :
    (Cache.step [(([2] : List Nat), (5 : Nat))] (CacheOp.loadOp [1])).1
      = [(([2] : List Nat), (5 : Nat))] ∧
    findTab (Cache.step [(([2] : List Nat), (5 : Nat))] (CacheOp.storeOp [1] 9)).1 [2]
      = findTab [(([2] : List Nat), (5 : Nat))] [2] :=
  claim_load_store_frame [([2], 5)] [1] [2] 9 (by decide)

end Caching
